import Mathlib

/-!
Shallow embedding of the authentication/token core of the `ninjarmm_mcp`
package (files `auth/tokens.py`, `auth/manager.py`, `models/auth.py`).

Modelling conventions:
* Timestamps (`datetime`) are modelled as natural numbers counting seconds;
  `datetime.now()` becomes an explicit `now : Nat` argument, and
  `timedelta(seconds = k)` becomes addition of `k`.
* `Optional[str]` becomes `Option String`; Python truthiness of an optional
  string (`if s:`) is `strTruthy` (false for `None` and for `""`).
* Python dicts (`self._tokens`) are association lists with first-match
  lookup and replace-or-append assignment, mirroring `dict.get`,
  `dict.__setitem__` and `key in dict`.
* `datetime.isoformat()/fromisoformat()` (a lossless decimal text form of a
  timestamp) is modelled as the base-10 digit expansion of the second count.
* The three token-endpoint HTTP exchanges are modelled by an oracle
  (`NetOracle`) giving the outcome of each exchange; the list of exchanges a call
  performs is returned explicitly so that "no network call" is a statement
  about that list.
-/

namespace NinjaMCP

/-- Python truthiness of an `Optional[str]`: `None` and `""` are falsy. -/
def strTruthy : Option String → Bool
  | none => false
  | some s => !(s == "")

/-- Whether `needle` starts `hay` (character lists). -/
def startsWithList : List Char → List Char → Bool
  | [], _ => true
  | _ :: _, [] => false
  | a :: as, b :: bs => a == b && startsWithList as bs

/-- Whether `needle` occurs contiguously inside `hay` (character lists). -/
def hasSubstr (needle : List Char) : List Char → Bool
  | [] => startsWithList needle []
  | c :: cs => startsWithList needle (c :: cs) || hasSubstr needle cs

/-- Model of the Python expression `needle in hay` on strings: substring containment. -/
def pyIn (needle hay : String) : Bool :=
  hasSubstr needle.data hay.data

/-- Model of the Python method `s.lower()` (operation names are ASCII, so per-char
basic-latin lowering is exact). -/
def pyLower (s : String) : String :=
  String.mk (s.data.map Char.toLower)

/-- Embedding of `models/auth.py::TokenInfo` — one token record. -/
structure TokenInfo where
  access_token : Option String
  refresh_token : Option String
  expires_at : Option Nat
  scope : Option String
  token_type : String
  valid : Bool
deriving Repr, DecidableEq

/-- The pydantic field defaults of `TokenInfo` (`TokenInfo()`). -/
def TokenInfo.empty : TokenInfo :=
  { access_token := none
    refresh_token := none
    expires_at := none
    scope := none
    token_type := "Bearer"
    valid := false }

/-- Embedding of `TokenInfo.is_expired`: no `expires_at` counts as expired, else
`datetime.now() >= expires_at`. -/
def TokenInfo.is_expired (t : TokenInfo) (now : Nat) : Bool :=
  match t.expires_at with
  | none => true
  | some ea => decide (ea ≤ now)

/-- Embedding of `TokenInfo.is_valid`: `self.valid and self.access_token and not
self.is_expired()` (Python truthiness on the access token). -/
def TokenInfo.is_valid (t : TokenInfo) (now : Nat) : Bool :=
  t.valid && strTruthy t.access_token && !(t.is_expired now)

/-- Embedding of `models/auth.py::AuthStatus` — the derived status view.  The source keeps
the two records in a dict `tokens` with keys `"client"`/`"user"`; the two
slots are modelled as two fields (the selector only ever reads those two
keys). -/
structure AuthStatus where
  auth_mode : String
  client_scopes : String
  user_scopes : String
  client : TokenInfo
  user : TokenInfo
deriving Repr, DecidableEq

/-- The condition `operation and "ticket" in operation.lower()` from
`AuthStatus.get_best_token` and `AuthenticationManager.authenticate`. -/
def isTicketOperation : Option String → Bool
  | none => false
  | some s => !(s == "") && pyIn "ticket" (pyLower s)

/-- The condition `operation and "ticket" not in operation.lower()` from
`AuthenticationManager.authenticate` (line 140). -/
def isNonTicketOperation : Option String → Bool
  | none => false
  | some s => !(s == "") && !(pyIn "ticket" (pyLower s))

/-- Embedding of `AuthStatus.get_best_token` — credential selector. -/
def AuthStatus.get_best_token (st : AuthStatus) (now : Nat)
    (operation : Option String) : Option TokenInfo :=
  if isTicketOperation operation then
    if st.user.is_valid now then some st.user else none
  else if st.client.is_valid now then some st.client
  else if st.user.is_valid now then some st.user
  else none

/-- Association-list model of a Python `dict` keyed by strings: first-match
lookup (`d.lookup k` is `dict.get`). -/
abbrev Dict (α : Type) := List (String × α)

/-- Python `d[k] = v`: replace an existing binding in place, else append. -/
def dictSet {α : Type} (d : Dict α) (k : String) (v : α) : Dict α :=
  if (d.lookup k).isSome then
    d.map (fun p => if p.1 = k then (k, v) else p)
  else
    d ++ [(k, v)]

/-- Little-endian base-10 digit expansion, by structural recursion on a
fuel bound (so that concrete instances reduce in the kernel). -/
def digitsFuel : Nat → Nat → List Nat
  | 0, _ => []
  | _ + 1, 0 => []
  | fuel + 1, n + 1 => ((n + 1) % 10) :: digitsFuel fuel ((n + 1) / 10)

/-- Decimal digits of a natural number (the textual timestamp form). -/
def natDigits (n : Nat) : List Nat :=
  digitsFuel n n

/-- Read a little-endian decimal digit list back into a natural number. -/
def ofDigitsNat : List Nat → Nat
  | [] => 0
  | d :: ds => d + 10 * ofDigitsNat ds

/-- Serialized form of a `TokenInfo` as written by
`TokenManager.save_tokens` (`model_dump` with `expires_at` rendered in its
lossless textual form, modelled as the base-10 digits of the second
count). -/
structure SerializedToken where
  access_token : Option String
  refresh_token : Option String
  expires_at : Option (List Nat)
  scope : Option String
  token_type : String
  valid : Bool
deriving Repr, DecidableEq

/-- Serialize one record (`token_info.model_dump()` plus
`expires_at.isoformat()` when present). -/
def serializeToken (t : TokenInfo) : SerializedToken :=
  { access_token := t.access_token
    refresh_token := t.refresh_token
    expires_at := t.expires_at.map natDigits
    scope := t.scope
    token_type := t.token_type
    valid := t.valid }

/-- Parse one record back (`datetime.fromisoformat` on `expires_at`, then
`TokenInfo(**token_data)`). -/
def deserializeToken (sd : SerializedToken) : TokenInfo :=
  { access_token := sd.access_token
    refresh_token := sd.refresh_token
    expires_at := sd.expires_at.map ofDigitsNat
    scope := sd.scope
    token_type := sd.token_type
    valid := sd.valid }

/-- Serialize the whole token dict, as `save_tokens` does slot by slot. -/
def serializeTokens (d : Dict TokenInfo) : Dict SerializedToken :=
  d.map (fun p => (p.1, serializeToken p.2))

/-- Embedding of `auth/tokens.py::TokenManager`.  `tokens` is the in-memory dict
`self._tokens`; `storage` is the content of the persisted file
(`none` = no file on disk). -/
structure TokenManager where
  tokens : Dict TokenInfo
  storage : Option (Dict SerializedToken)
deriving Repr, DecidableEq

/-- The dict a fresh `TokenManager.__init__` builds. -/
def initialTokens : Dict TokenInfo :=
  [("client", TokenInfo.empty), ("user", TokenInfo.empty)]

/-- A freshly constructed `TokenManager` over a file holding `file`. -/
def TokenManager.fresh (file : Option (Dict SerializedToken)) : TokenManager :=
  { tokens := initialTokens, storage := file }

/-- Embedding of `TokenManager.save_tokens`: rewrite the persisted file with the full
current dict. -/
def TokenManager.save_tokens (tm : TokenManager) : TokenManager :=
  { tm with storage := some (serializeTokens tm.tokens) }

/-- One entry of the loop in `load_tokens`: a file entry whose key is
already in `self._tokens` replaces that record, any other entry is
ignored. -/
def loadStep (acc : Dict TokenInfo) (p : String × SerializedToken) : Dict TokenInfo :=
  if (acc.lookup p.1).isSome then dictSet acc p.1 (deserializeToken p.2) else acc

/-- Embedding of `TokenManager.load_tokens`: a missing file leaves the empty dict; else
fold the entries of the file through `loadStep`. -/
def TokenManager.load_tokens (tm : TokenManager) : TokenManager :=
  match tm.storage with
  | none => tm
  | some data => { tm with tokens := data.foldl loadStep tm.tokens }

/-- Embedding of `TokenManager.get_token`: `self._tokens.get(token_type, TokenInfo())`. -/
def TokenManager.get_token (tm : TokenManager) (token_type : String) : TokenInfo :=
  (tm.tokens.lookup token_type).getD TokenInfo.empty

/-- Embedding of `TokenManager.set_token`: `expires_at = now + int(expires_in * 0.9)`
(truncating multiplication by the float `0.9`, i.e. `expires_in * 9 / 10` on
naturals), full record replacement marked valid, then a synchronous
`save_tokens`. -/
def TokenManager.set_token (tm : TokenManager) (token_type : String)
    (access_token : String) (expires_in : Nat) (refresh_token : Option String)
    (scope : Option String) (now : Nat) : TokenManager :=
  let expires_at := now + expires_in * 9 / 10
  let t : TokenInfo :=
    { access_token := some access_token
      refresh_token := refresh_token
      expires_at := some expires_at
      scope := scope
      token_type := "Bearer"
      valid := true }
  TokenManager.save_tokens { tm with tokens := dictSet tm.tokens token_type t }

/-- Embedding of `TokenManager.clear_token`: reset one slot to `TokenInfo()` and save. -/
def TokenManager.clear_token (tm : TokenManager) (token_type : String) : TokenManager :=
  TokenManager.save_tokens { tm with tokens := dictSet tm.tokens token_type TokenInfo.empty }

/-- Embedding of `TokenManager.clear_all_tokens`: reset the whole dict and save. -/
def TokenManager.clear_all_tokens (tm : TokenManager) : TokenManager :=
  TokenManager.save_tokens { tm with tokens := initialTokens }

/-- Embedding of `TokenManager.is_token_valid`. -/
def TokenManager.is_token_valid (tm : TokenManager) (token_type : String)
    (now : Nat) : Bool :=
  (tm.get_token token_type).is_valid now

/-- JSON body of a successful token-endpoint response: at minimum
`access_token` and `expires_in`, optionally `refresh_token` and `scope`. -/
structure TokenData where
  access_token : String
  expires_in : Nat
  refresh_token : Option String
  scope : Option String
deriving Repr, DecidableEq

/-- One network exchange against the token endpoint. -/
inductive NetCall where
  | clientCreds
  | userAuth
  | refreshCall
deriving Repr, DecidableEq

/-- Oracle giving the outcome each OAuth2 exchange would have if performed:
`none` models the exchange raising (protocol rejection or transport
failure). -/
structure NetOracle where
  clientCreds : Option TokenData
  userAuth : Option TokenData
  refresh : Option TokenData
deriving Repr, DecidableEq

/-- Result of an internal flow helper: the updated manager state or the
message of the exception raised. -/
inductive FlowResult (σ : Type) where
  | success (st : σ)
  | failure (msg : String)
deriving Repr, DecidableEq

/-- Result of `authenticate`: the access-token string returned, or the
message of the exception raised. -/
inductive AuthResult where
  | token (s : String)
  | failed (msg : String)
deriving Repr, DecidableEq

/-- Embedding of `auth/manager.py::AuthenticationManager` — the state that the claims
depend on.  `auth_status` is recomputed from `token_manager` on every use
(`_update_auth_status`), so it is modelled as the derived view
`Manager.authStatus` rather than stored. -/
structure Manager where
  auth_mode : String
  client_scopes : String
  user_scopes : String
  has_machine_credentials : Bool
  token_manager : TokenManager
deriving Repr, DecidableEq

/-- Embedding of `_update_auth_status` / `get_auth_status`: the derived `AuthStatus`. -/
def Manager.authStatus (m : Manager) : AuthStatus :=
  { auth_mode := m.auth_mode
    client_scopes := m.client_scopes
    user_scopes := m.user_scopes
    client := m.token_manager.get_token "client"
    user := m.token_manager.get_token "user" }

/-- Embedding of `_authenticate_client_credentials`: raise without any exchange when no
machine credentials; else perform the client-credentials exchange and
persist the response into the `"client"` slot (scope from the response,
no refresh token).  Returns the resulting state and the exchanges made. -/
def Manager.auth_client_credentials (m : Manager) (now : Nat)
    (net : NetOracle) : FlowResult Manager × List NetCall :=
  if !m.has_machine_credentials then
    (FlowResult.failure
      "Client credentials authentication not available - no machine credentials configured",
      [])
  else
    match net.clientCreds with
    | some td =>
      let tm2 := m.token_manager.set_token "client" td.access_token
        td.expires_in none td.scope now
      (FlowResult.success { m with token_manager := tm2 }, [NetCall.clientCreds])
    | none =>
      (FlowResult.failure "Client credentials authentication failed",
        [NetCall.clientCreds])

/-- Embedding of `_authenticate_user_authorization`: as above, but the user-authorization
exchange persists into the `"user"` slot with the refresh token of the response. -/
def Manager.auth_user_authorization (m : Manager) (now : Nat)
    (net : NetOracle) : FlowResult Manager × List NetCall :=
  if !m.has_machine_credentials then
    (FlowResult.failure
      "User authorization flow not available - no machine credentials configured for OAuth flow",
      [])
  else
    match net.userAuth with
    | some td =>
      let tm2 := m.token_manager.set_token "user" td.access_token
        td.expires_in td.refresh_token td.scope now
      (FlowResult.success { m with token_manager := tm2 }, [NetCall.userAuth])
    | none =>
      (FlowResult.failure "User authorization authentication failed",
        [NetCall.userAuth])

/-- Embedding of `_refresh_user_token`: raise without machine credentials or without a
(truthy) stored refresh token, both before any exchange; else perform the
refresh exchange and persist into the `"user"` slot, keeping the prior
refresh token when the response omits one
(`token_data.get("refresh_token", user_token.refresh_token)`). -/
def Manager.refresh_user_token (m : Manager) (now : Nat)
    (net : NetOracle) : FlowResult Manager × List NetCall :=
  if !m.has_machine_credentials then
    (FlowResult.failure
      "Token refresh not available - no machine credentials configured for OAuth flow",
      [])
  else
    match (m.token_manager.get_token "user").refresh_token with
    | none => (FlowResult.failure "No refresh token available", [])
    | some rt =>
      if rt == "" then (FlowResult.failure "No refresh token available", [])
      else
        match net.refresh with
        | some td =>
          let tm2 := m.token_manager.set_token "user" td.access_token
            td.expires_in (some (td.refresh_token.getD rt)) td.scope now
          (FlowResult.success { m with token_manager := tm2 }, [NetCall.refreshCall])
        | none =>
          (FlowResult.failure "User token refresh failed", [NetCall.refreshCall])

/-- Lines 154-159 of `authenticate`: after a flow, recompute the status,
re-select, and either return the token or raise "Authentication failed". -/
def Manager.finishAuth (m : Manager) (operation : Option String) (now : Nat)
    (calls : List NetCall) : Manager × AuthResult × List NetCall :=
  match m.authStatus.get_best_token now operation with
  | some tok =>
    if tok.is_valid now then (m, AuthResult.token (tok.access_token.getD ""), calls)
    else (m, AuthResult.failed "Authentication failed - no valid token available", calls)
  | none => (m, AuthResult.failed "Authentication failed - no valid token available", calls)

/-- Lines 131-159 of `authenticate`: the flow-selection step reached on a
cache miss after the refresh attempt.  Without machine credentials, fail
hard (or return the token of the user slot if it is valid); otherwise pick a
flow from `auth_mode` and the "ticket" substring rule, run it, and finish.
A flow exception propagates to the caller with the manager state it left. -/
def Manager.authenticateAfterRefresh (m : Manager) (operation : Option String)
    (now : Nat) (net : NetOracle) (calls : List NetCall) :
    Manager × AuthResult × List NetCall :=
  if !m.has_machine_credentials then
    if !(m.authStatus.user.is_valid now) then
      (m, AuthResult.failed
        "No valid authentication available. Machine credentials not configured and no user tokens injected.",
        calls)
    else
      (m, AuthResult.token (m.authStatus.user.access_token.getD ""), calls)
  else if m.auth_mode == "client" ||
      (m.auth_mode == "hybrid" && isNonTicketOperation operation) then
    match m.auth_client_credentials now net with
    | (FlowResult.success m2, cs) => m2.finishAuth operation now (calls ++ cs)
    | (FlowResult.failure e, cs) => (m, AuthResult.failed e, calls ++ cs)
  else if m.auth_mode == "user" ||
      (m.auth_mode == "hybrid" && isTicketOperation operation) then
    match m.auth_user_authorization now net with
    | (FlowResult.success m2, cs) => m2.finishAuth operation now (calls ++ cs)
    | (FlowResult.failure e, cs) => (m, AuthResult.failed e, calls ++ cs)
  else
    match m.auth_client_credentials now net with
    | (FlowResult.success m2, cs) => m2.finishAuth operation now (calls ++ cs)
    | (FlowResult.failure e, cs) => (m, AuthResult.failed e, calls ++ cs)

/-- Lines 119-129 of `authenticate`: if the user slot has a (truthy) refresh
token but is not valid, try a refresh; on success re-select and return a now
valid token if any; a refresh exception is swallowed and the original state
falls through to the flow-selection step. -/
def Manager.authenticateSlow (m : Manager) (operation : Option String)
    (now : Nat) (net : NetOracle) : Manager × AuthResult × List NetCall :=
  if strTruthy m.authStatus.user.refresh_token
      && !(m.authStatus.user.is_valid now) then
    match m.refresh_user_token now net with
    | (FlowResult.success m2, cs) =>
      match m2.authStatus.get_best_token now operation with
      | some tok =>
        if tok.is_valid now then (m2, AuthResult.token (tok.access_token.getD ""), cs)
        else m2.authenticateAfterRefresh operation now net cs
      | none => m2.authenticateAfterRefresh operation now net cs
    | (FlowResult.failure _e, cs) => m.authenticateAfterRefresh operation now net cs
  else
    m.authenticateAfterRefresh operation now net []

/-- Embedding of `AuthenticationManager.authenticate(operation)`: recompute status, try
the cached token found by the selector first (fast path, no exchange), else fall into
the refresh/flow pipeline.  Returns the final manager state, the result,
and the list of network exchanges performed. -/
def Manager.authenticate (m : Manager) (operation : Option String) (now : Nat)
    (net : NetOracle) : Manager × AuthResult × List NetCall :=
  match m.authStatus.get_best_token now operation with
  | some tok =>
    if tok.is_valid now then (m, AuthResult.token (tok.access_token.getD ""), [])
    else m.authenticateSlow operation now net
  | none => m.authenticateSlow operation now net

/-- A freshly constructed token manager with no file on disk. -/
def tmEmpty : TokenManager := TokenManager.fresh none

/-- Oracle on which every exchange fails. -/
def netNone : NetOracle := { clientCreds := none, userAuth := none, refresh := none }

/-- A plain successful token response without refresh-token rotation. -/
def tdPlain : TokenData :=
  { access_token := "newtok", expires_in := 1000, refresh_token := none, scope := none }

/-- A successful token response that rotates the refresh token. -/
def tdRotate : TokenData :=
  { access_token := "newtok2", expires_in := 1000, refresh_token := some "newrt", scope := none }

/-- Oracle on which every exchange succeeds with `tdPlain`. -/
def netAll : NetOracle :=
  { clientCreds := some tdPlain, userAuth := some tdPlain, refresh := some tdPlain }

/-- Injection-only manager (no machine credentials) whose client slot holds
an injected, long-lived token and whose user slot is empty. -/
def mInjC : Manager :=
  { auth_mode := "hybrid"
    client_scopes := "monitoring management control"
    user_scopes := "monitoring management control"
    has_machine_credentials := false
    token_manager := tmEmpty.set_token "client" "cltok" 4000 none none 0 }

/-- Injection-only manager with nothing injected. -/
def mInjEmpty : Manager :=
  { mInjC with token_manager := tmEmpty }

/-- Manager with machine credentials configured in `auth_mode = "user"`. -/
def mUserMode : Manager :=
  { auth_mode := "user"
    client_scopes := "monitoring management control"
    user_scopes := "monitoring management control"
    has_machine_credentials := true
    token_manager := tmEmpty }

/-- Manager with machine credentials configured in the default hybrid mode. -/
def mHybrid : Manager :=
  { mUserMode with auth_mode := "hybrid" }

/-- Hybrid manager whose user slot holds an already-expired token with a
stored refresh token. -/
def mRefresh : Manager :=
  { mHybrid with token_manager := tmEmpty.set_token "user" "oldtok" 0 (some "rt0") none 0 }

/-- An empty derived status (fresh manager). -/
def stEmpty : AuthStatus :=
  { auth_mode := "hybrid"
    client_scopes := "monitoring management control"
    user_scopes := "monitoring management control"
    client := TokenInfo.empty
    user := TokenInfo.empty }

/-- A record that is marked valid, carries an `expires_at` in the future,
and whose `access_token` is present but the empty string. -/
def tEmptyTok : TokenInfo :=
  { access_token := some ""
    refresh_token := none
    expires_at := some 10
    scope := none
    token_type := "Bearer"
    valid := true }

/-- A token manager holding records in both slots. -/
def tmTwo : TokenManager :=
  (tmEmpty.set_token "client" "a" 1000 none none 5).set_token "user" "b" 50 (some "r") none 7

/-- The client record held by `mInjC`. -/
def tokClientInj : TokenInfo := mInjC.token_manager.get_token "client"

end NinjaMCP

namespace NinjaMCP

/-- The selector only ever returns a record that is valid at the same
instant. -/
theorem lemma_get_best_token_valid {st : AuthStatus} {now : Nat}
    {op : Option String} {tok : TokenInfo}
    (h : st.get_best_token now op = some tok) : tok.is_valid now = true := by
  unfold AuthStatus.get_best_token at h
  split at h
  · split at h
    next hval => cases h; exact hval
    next => cases h
  · split at h
    next hval => cases h; exact hval
    next =>
      split at h
      next hval => cases h; exact hval
      next => cases h

/-- Looking up the replaced key after the in-place branch of `dictSet`. -/
theorem lemma_lookup_map_replace {α : Type} (d : Dict α) (k : String) (v : α) :
    (d.map (fun p => if p.1 = k then (k, v) else p)).lookup k
      = (d.lookup k).map (fun _ => v) := by
  induction d with
  | nil => simp [List.lookup]
  | cons p ps ih =>
    simp only [List.map_cons]
    by_cases hp : p.1 = k
    · rw [if_pos hp]
      simp [List.lookup, hp]
    · rw [if_neg hp]
      have hk : (k == p.1) = false := by
        simp [beq_iff_eq]
        exact fun hkp => hp hkp.symm
      simp [List.lookup, hk, ih]

/-- Looking up another key after the in-place branch of `dictSet`. -/
theorem lemma_lookup_map_replace_ne {α : Type} (d : Dict α) (k : String)
    (v : α) (s : String) (hs : s ≠ k) :
    (d.map (fun p => if p.1 = k then (k, v) else p)).lookup s = d.lookup s := by
  induction d with
  | nil => simp [List.lookup]
  | cons p ps ih =>
    simp only [List.map_cons]
    by_cases hp : p.1 = k
    · rw [if_pos hp]
      have h1 : (s == k) = false := by simp [beq_iff_eq, hs]
      have h2 : (s == p.1) = false := by
        simp [beq_iff_eq]
        exact fun hsp => hs (hsp.trans hp)
      simp [List.lookup, h1, h2, ih]
    · rw [if_neg hp]
      simp [List.lookup, ih]

/-- Lemma: `List.lookup` distributes over append. -/
theorem lemma_lookup_append {α : Type} (d e : Dict α) (s : String) :
    (d ++ e).lookup s = match d.lookup s with
      | some w => some w
      | none => e.lookup s := by
  induction d with
  | nil => simp [List.lookup]
  | cons p ps ih =>
    by_cases hp : s = p.1
    · simp [List.lookup, hp]
    · have h1 : (s == p.1) = false := by simp [beq_iff_eq, hp]
      simp [List.lookup, h1, ih]

/-- Lemma: `dictSet` makes the assigned binding visible. -/
theorem lemma_lookup_dictSet_self {α : Type} (d : Dict α) (k : String) (v : α) :
    (dictSet d k v).lookup k = some v := by
  unfold dictSet
  split
  next h =>
    rw [lemma_lookup_map_replace]
    cases hl : d.lookup k with
    | some w => simp
    | none => rw [hl] at h; simp at h
  next h =>
    rw [lemma_lookup_append]
    cases hl : d.lookup k with
    | some w => rw [hl] at h; simp at h
    | none => simp [List.lookup]

/-- Lemma: `dictSet` leaves the binding of every other key unchanged. -/
theorem lemma_lookup_dictSet_ne {α : Type} (d : Dict α) (k : String) (v : α)
    (s : String) (hs : s ≠ k) : (dictSet d k v).lookup s = d.lookup s := by
  unfold dictSet
  split
  next => exact lemma_lookup_map_replace_ne d k v s hs
  next =>
    rw [lemma_lookup_append]
    cases hl : d.lookup s with
    | some w => simp
    | none =>
      have h1 : (s == k) = false := by simp [beq_iff_eq, hs]
      simp [List.lookup, h1]

/-- Reading the decimal digit expansion back is the identity (with enough
fuel). -/
theorem lemma_ofDigits_digitsFuel : ∀ (fuel n : Nat), n ≤ fuel →
    ofDigitsNat (digitsFuel fuel n) = n
  | 0, 0, _ => rfl
  | 0, _ + 1, h => absurd h (by omega)
  | _ + 1, 0, _ => rfl
  | fuel + 1, n + 1, _h => by
    have hdiv : (n + 1) / 10 ≤ fuel := by
      have : (n + 1) / 10 < n + 1 := Nat.div_lt_self (Nat.succ_pos n) (by omega)
      omega
    simp [digitsFuel, ofDigitsNat,
      lemma_ofDigits_digitsFuel fuel ((n + 1) / 10) hdiv]
    omega

/-- The textual timestamp form round-trips. -/
theorem lemma_ofDigits_natDigits (n : Nat) : ofDigitsNat (natDigits n) = n :=
  lemma_ofDigits_digitsFuel n n (Nat.le_refl n)

/-- Record serialization round-trips. -/
theorem lemma_deserialize_serialize (t : TokenInfo) :
    deserializeToken (serializeToken t) = t := by
  cases t with
  | mk a r e s tt v =>
    cases e <;>
      simp [serializeToken, deserializeToken, lemma_ofDigits_natDigits]

/-- The record `set_token` leaves in the assigned slot. -/
theorem lemma_get_token_set_self (tm : TokenManager) (slot tok : String)
    (e : Nat) (rt sc : Option String) (t0 : Nat) :
    (tm.set_token slot tok e rt sc t0).get_token slot =
      { access_token := some tok
        refresh_token := rt
        expires_at := some (t0 + e * 9 / 10)
        scope := sc
        token_type := "Bearer"
        valid := true } := by
  unfold TokenManager.set_token TokenManager.get_token TokenManager.save_tokens
  simp [lemma_lookup_dictSet_self]

/-- Lemma: `set_token` does not touch any other slot. -/
theorem lemma_get_token_set_ne (tm : TokenManager) (slot tok : String)
    (e : Nat) (rt sc : Option String) (t0 : Nat) (s : String) (hs : s ≠ slot) :
    (tm.set_token slot tok e rt sc t0).tokens.lookup s = tm.tokens.lookup s := by
  unfold TokenManager.set_token TokenManager.save_tokens
  simp [lemma_lookup_dictSet_ne _ _ _ _ hs]

/-- Lemma: `loadStep` on an entry with a different key changes nothing visible at
`s`. -/
theorem lemma_loadStep_lookup_ne (acc : Dict TokenInfo)
    (p : String × SerializedToken) (s : String) (hs : s ≠ p.1) :
    (loadStep acc p).lookup s = acc.lookup s := by
  unfold loadStep
  split
  · exact lemma_lookup_dictSet_ne _ _ _ _ hs
  · rfl

/-- Folding `loadStep` over entries none of which carry key `s` leaves the
binding at `s` unchanged. -/
theorem lemma_foldl_loadStep_notmem (data : Dict SerializedToken)
    (acc : Dict TokenInfo) (s : String) (hs : ∀ q ∈ data, q.1 ≠ s) :
    ((data.foldl loadStep acc).lookup s) = acc.lookup s := by
  induction data generalizing acc with
  | nil => rfl
  | cons p ps ih =>
    simp only [List.foldl_cons]
    rw [ih (loadStep acc p) (fun q hq => hs q (List.mem_cons_of_mem p hq))]
    exact lemma_loadStep_lookup_ne acc p s
      (fun h => hs p (List.mem_cons_self p ps) h.symm)

/-- Folding `loadStep` over a duplicate-free file: a key present in the
accumulator ends bound to the deserialized file entry when the file has one,
else keeps its binding. -/
theorem lemma_foldl_loadStep_lookup (data : Dict SerializedToken)
    (acc : Dict TokenInfo) (s : String) (hacc : (acc.lookup s).isSome = true)
    (hnd : (data.map Prod.fst).Nodup) :
    ((data.foldl loadStep acc).lookup s)
      = match data.lookup s with
        | some sd => some (deserializeToken sd)
        | none => acc.lookup s := by
  induction data generalizing acc with
  | nil => simp [List.lookup]
  | cons p ps ih =>
    simp only [List.foldl_cons]
    by_cases hsp : s = p.1
    · have hstep : loadStep acc p = dictSet acc p.1 (deserializeToken p.2) := by
        unfold loadStep
        rw [if_pos (hsp ▸ hacc)]
      have hnotmem : ∀ q ∈ ps, q.1 ≠ s := by
        simp only [List.map_cons, List.nodup_cons] at hnd
        intro q hq hqs
        apply hnd.1
        have hmem : q.1 ∈ List.map Prod.fst ps := List.mem_map_of_mem Prod.fst hq
        rw [hqs, hsp] at hmem
        exact hmem
      rw [hstep, lemma_foldl_loadStep_notmem ps _ s hnotmem, hsp,
        lemma_lookup_dictSet_self]
      have hbeq : (s == p.1) = true := by simp [beq_iff_eq, hsp]
      simp [List.lookup, hbeq]
    · have hacc2 : ((loadStep acc p).lookup s).isSome = true := by
        rw [lemma_loadStep_lookup_ne acc p s hsp]
        exact hacc
      have hnd2 : (ps.map Prod.fst).Nodup := by
        simp only [List.map_cons, List.nodup_cons] at hnd
        exact hnd.2
      rw [ih (loadStep acc p) hacc2 hnd2,
        lemma_loadStep_lookup_ne acc p s hsp]
      have hbeq : (s == p.1) = false := by simp [beq_iff_eq, hsp]
      simp [List.lookup, hbeq]

/-- Serializing the dict just serializes each binding. -/
theorem lemma_lookup_serializeTokens (d : Dict TokenInfo) (s : String) :
    (serializeTokens d).lookup s = (d.lookup s).map serializeToken := by
  induction d with
  | nil => simp [serializeTokens, List.lookup]
  | cons p ps ih =>
    by_cases hp : s = p.1
    · have hbeq : (s == p.1) = true := by simp [beq_iff_eq, hp]
      simp [serializeTokens, List.lookup, hbeq]
    · have hbeq : (s == p.1) = false := by simp [beq_iff_eq, hp]
      simp only [serializeTokens, List.map_cons, List.lookup, hbeq] at ih ⊢
      simpa [serializeTokens] using ih

/-- Saving a duplicate-free store and loading the file into a fresh manager
reproduces the stored record of each of the two slots. -/
theorem lemma_load_save_get_token (tm : TokenManager)
    (hnd : (tm.tokens.map Prod.fst).Nodup) (slot : String)
    (hslot : slot = "client" ∨ slot = "user") :
    ((TokenManager.fresh (tm.save_tokens).storage).load_tokens).get_token slot
      = tm.get_token slot := by
  have hinit : (initialTokens.lookup slot).isSome = true := by
    rcases hslot with h | h <;> subst h <;> decide
  have hnd2 : ((serializeTokens tm.tokens).map Prod.fst).Nodup := by
    unfold serializeTokens
    rw [List.map_map]
    exact hnd
  unfold TokenManager.fresh TokenManager.save_tokens TokenManager.load_tokens
    TokenManager.get_token
  simp only
  rw [lemma_foldl_loadStep_lookup _ _ _ hinit hnd2,
    lemma_lookup_serializeTokens]
  cases htm : tm.tokens.lookup slot with
  | some t => simp [lemma_deserialize_serialize]
  | none =>
    rcases hslot with h | h <;> subst h <;> simp <;> decide

/-- Claim C4, counterexample: a record with `valid = true`, an `expires_at` in the
future, and an access token that is present (`Some`) but empty is not usable,
although the condition of the claim (valid, token present, now before expiry)
holds of it. -/
theorem C4_counterexample :
    tEmptyTok.valid = true ∧ tEmptyTok.access_token.isSome = true ∧
    tEmptyTok.expires_at = some 10 ∧ 0 < 10 ∧
    tEmptyTok.is_valid 0 = false := by
  decide

/-- Claim C4 (amended): a record is usable iff its `valid` flag is true, its
`access_token` is present and non-empty (Python truthiness), and the
current time is strictly before its `expires_at`; in particular a record
with `valid = false` is never usable. -/
theorem C4_is_valid_iff (t : TokenInfo) (now : Nat) :
    t.is_valid now = true ↔
      (t.valid = true ∧ (∃ s, t.access_token = some s ∧ s ≠ "") ∧
        (∃ e, t.expires_at = some e ∧ now < e)) := by
  cases t with
  | mk a r e s tt v =>
    cases a <;> cases e <;>
      simp [TokenInfo.is_valid, TokenInfo.is_expired, strTruthy, Nat.not_le,
        and_assoc]

/-- Claim C1, counterexample: a token set with `expires_in = 1` at time 0 gets
`expires_at = 0` (the declared `set-time + 0.9·e` would be `0.9`) and is
already unusable at the very instant of the set, refuting both the exact
`0.9·e` expiry and immediate usability. -/
theorem C1_counterexample :
    ((tmEmpty.set_token "client" "tok" 1 none none 0).get_token "client").expires_at
        = some 0
    ∧ ((tmEmpty.set_token "client" "tok" 1 none none 0).get_token "client").is_valid 0
        = false := by
  decide

/-- Claim C1 (amended): a record written by `set(slot, access_token, expires_in=e)`
at time `t0` has `expires_at = t0 + ⌊0.9·e⌋` (integer truncation of
`e * 0.9`), and is usable at an instant iff that instant is strictly before
`t0 + ⌊0.9·e⌋`; so it is usable immediately only when `⌊0.9·e⌋ > 0`. -/
theorem C1_expiry_window (tm : TokenManager) (slot tok : String) (e : Nat)
    (rt sc : Option String) (t0 now : Nat) (htok : tok ≠ "") :
    ((tm.set_token slot tok e rt sc t0).get_token slot).expires_at
        = some (t0 + e * 9 / 10)
    ∧ ((tm.set_token slot tok e rt sc t0).get_token slot).is_valid now
        = decide (now < t0 + e * 9 / 10) := by
  constructor
  · rw [lemma_get_token_set_self]
  · rw [lemma_get_token_set_self]
    have hb : (tok == "") = false := by simp [beq_iff_eq, htok]
    simp only [TokenInfo.is_valid, TokenInfo.is_expired, strTruthy, hb,
      Bool.not_false, Bool.true_and, Bool.and_true]
    rw [← decide_not]
    exact decide_eq_decide.mpr (by omega)

/-- Claim C1 witness: with `e = 1000` at `t0 = 0` the expiry is 900 and the
record is usable at time 10. -/
theorem C1_expiry_window_witness :
    ((tmEmpty.set_token "client" "tok" 1000 none none 0).get_token "client").expires_at
        = some 900
    ∧ ((tmEmpty.set_token "client" "tok" 1000 none none 0).get_token "client").is_valid 10
        = decide (10 < 900) :=
  C1_expiry_window tmEmpty "client" "tok" 1000 none none 0 10 (by decide)

/-- Claim C10: `get_token` is total — for a slot name with no binding in the
token dict it returns the empty invalid record, and `is_token_valid` is
false there. -/
theorem C10_get_token_total (tm : TokenManager) (s : String) (now : Nat)
    (h : tm.tokens.lookup s = none) :
    tm.get_token s = TokenInfo.empty ∧ tm.is_token_valid s now = false := by
  have h1 : tm.get_token s = TokenInfo.empty := by
    unfold TokenManager.get_token
    rw [h]
    rfl
  refine ⟨h1, ?_⟩
  unfold TokenManager.is_token_valid
  rw [h1]
  rfl

/-- Claim C10 witness: the unknown slot name `"session"` on a fresh manager. -/
theorem C10_get_token_total_witness :
    tmEmpty.get_token "session" = TokenInfo.empty
    ∧ tmEmpty.is_token_valid "session" 0 = false :=
  C10_get_token_total tmEmpty "session" 0 (by decide)

/-- Claim C2: the selector routes operation names containing `"ticket"`
(case-insensitively) to the user slot only, and every other operation name
— as well as the absence of one — to the client slot with user fallback. -/
theorem C2_selector_routing (st : AuthStatus) (now : Nat) (op : String) :
    (pyIn "ticket" (pyLower op) = true →
      st.get_best_token now (some op)
        = (if st.user.is_valid now then some st.user else none))
    ∧ (pyIn "ticket" (pyLower op) = false →
      st.get_best_token now (some op)
        = (if st.client.is_valid now then some st.client
           else if st.user.is_valid now then some st.user else none))
    ∧ (st.get_best_token now none
        = (if st.client.is_valid now then some st.client
           else if st.user.is_valid now then some st.user else none)) := by
  refine ⟨?_, ?_, ?_⟩
  · intro h
    have hop : (op == "") = false := by
      cases hq : (op == "") with
      | false => rfl
      | true =>
        have hqe : op = "" := by simpa [beq_iff_eq] using hq
        rw [hqe] at h
        simp [pyLower, pyIn, hasSubstr, startsWithList] at h
    simp [AuthStatus.get_best_token, isTicketOperation, hop, h]
  · intro h
    simp [AuthStatus.get_best_token, isTicketOperation, h]
  · simp [AuthStatus.get_best_token, isTicketOperation]

/-- Claim C2 witness: `"create_ticket"` is routed to the (empty, hence unusable)
user slot and yields no token. -/
theorem C2_selector_routing_witness :
    stEmpty.get_best_token 0 (some "create_ticket")
      = (if stEmpty.user.is_valid 0 then some stEmpty.user else none) :=
  (C2_selector_routing stEmpty 0 "create_ticket").1 (by decide)

/-- Claim C9: `set` replaces the addressed slot with a fresh valid record,
persists the full store before returning, and leaves every other slot
untouched; `clear` replaces it with the empty invalid record, persists, and
likewise leaves every other slot untouched. -/
theorem C9_set_clear_persist (tm : TokenManager) (slot tok : String) (e : Nat)
    (rt sc : Option String) (t0 : Nat) :
    ((tm.set_token slot tok e rt sc t0).get_token slot
        = { access_token := some tok
            refresh_token := rt
            expires_at := some (t0 + e * 9 / 10)
            scope := sc
            token_type := "Bearer"
            valid := true })
    ∧ ((tm.set_token slot tok e rt sc t0).storage
        = some (serializeTokens (tm.set_token slot tok e rt sc t0).tokens))
    ∧ (∀ s, s ≠ slot →
        (tm.set_token slot tok e rt sc t0).tokens.lookup s = tm.tokens.lookup s)
    ∧ ((tm.clear_token slot).get_token slot = TokenInfo.empty)
    ∧ ((tm.clear_token slot).storage
        = some (serializeTokens (tm.clear_token slot).tokens))
    ∧ (∀ s, s ≠ slot →
        (tm.clear_token slot).tokens.lookup s = tm.tokens.lookup s) := by
  refine ⟨lemma_get_token_set_self tm slot tok e rt sc t0, rfl, ?_, ?_, rfl, ?_⟩
  · intro s hs
    exact lemma_get_token_set_ne tm slot tok e rt sc t0 s hs
  · unfold TokenManager.clear_token TokenManager.save_tokens TokenManager.get_token
    simp [lemma_lookup_dictSet_self]
  · intro s hs
    unfold TokenManager.clear_token TokenManager.save_tokens
    simp [lemma_lookup_dictSet_ne _ _ _ _ hs]

/-- Claim C9 witness: setting the user slot of a store with both slots populated
leaves the binding of the client slot unchanged. -/
theorem C9_set_clear_persist_witness :
    (tmTwo.set_token "user" "c" 100 none none 9).tokens.lookup "client"
      = tmTwo.tokens.lookup "client" :=
  (C9_set_clear_persist tmTwo "user" "c" 100 none none 9).2.2.1 "client" (by decide)

/-- Claim C8: saving a (duplicate-free) store and loading the persisted file into
a fresh manager instance reproduces the usability verdict of each of the
two slots at every instant. -/
theorem C8_roundtrip_usability (tm : TokenManager)
    (hnd : (tm.tokens.map Prod.fst).Nodup) (slot : String)
    (hslot : slot = "client" ∨ slot = "user") (now : Nat) :
    (((TokenManager.fresh (tm.save_tokens).storage).load_tokens).get_token slot).is_valid now
      = (tm.get_token slot).is_valid now := by
  rw [lemma_load_save_get_token tm hnd slot hslot]

/-- Claim C8 witness: round-tripping a store with both slots populated preserves
the verdict of the user slot at time 20. -/
theorem C8_roundtrip_usability_witness :
    (((TokenManager.fresh (tmTwo.save_tokens).storage).load_tokens).get_token "user").is_valid 20
      = (tmTwo.get_token "user").is_valid 20 :=
  C8_roundtrip_usability tmTwo (by decide) "user" (Or.inr rfl) 20

/-- Claim C7: a successful refresh stores the refresh token of the response when the
response carries one and keeps the previously stored refresh token when the
response omits it. -/
theorem C7_refresh_rotation (m : Manager) (now : Nat) (net : NetOracle)
    (rt : String) (td : TokenData)
    (hmc : m.has_machine_credentials = true)
    (hrt : (m.token_manager.get_token "user").refresh_token = some rt)
    (hne : rt ≠ "")
    (hresp : net.refresh = some td) :
    ∃ m2, m.refresh_user_token now net
        = (FlowResult.success m2, [NetCall.refreshCall])
      ∧ (m2.token_manager.get_token "user").refresh_token
          = (match td.refresh_token with
             | some r => some r
             | none => some rt) := by
  have hb : (rt == "") = false := by simp [beq_iff_eq, hne]
  refine ⟨{ m with token_manager := m.token_manager.set_token "user" td.access_token td.expires_in (some (td.refresh_token.getD rt)) td.scope now }, ?_, ?_⟩
  · unfold Manager.refresh_user_token
    rw [hmc, hrt, hresp]
    simp [hb]
  · show ((m.token_manager.set_token "user" td.access_token td.expires_in
      (some (td.refresh_token.getD rt)) td.scope now).get_token "user").refresh_token
        = _
    rw [lemma_get_token_set_self]
    cases td.refresh_token <;> rfl

/-- Claim C7 witness: refreshing `mRefresh` (stored refresh token `"rt0"`) with a
response that omits `refresh_token` keeps `"rt0"` stored. -/
theorem C7_refresh_rotation_witness :
    ∃ m2, mRefresh.refresh_user_token 5 netAll
        = (FlowResult.success m2, [NetCall.refreshCall])
      ∧ (m2.token_manager.get_token "user").refresh_token
          = (match tdPlain.refresh_token with
             | some r => some r
             | none => some "rt0") :=
  C7_refresh_rotation mRefresh 5 netAll "rt0" tdPlain rfl (by decide) (by decide) rfl

/-- When the selector returns nothing, the user slot is not valid (every
branch of the selector would otherwise have returned it). -/
theorem lemma_get_best_token_none {st : AuthStatus} {now : Nat}
    {op : Option String} (h : st.get_best_token now op = none) :
    st.user.is_valid now = false := by
  cases hb : st.user.is_valid now with
  | false => rfl
  | true =>
    exfalso
    unfold AuthStatus.get_best_token at h
    rw [hb] at h
    split at h
    · simp at h
    · split at h
      · cases h
      · simp at h

/-- The fast path of `authenticate`: a selector hit is returned as-is with
no network call and no state change. -/
theorem lemma_authenticate_fast (m : Manager) (op : Option String) (now : Nat)
    (net : NetOracle) (tok : TokenInfo)
    (h : m.authStatus.get_best_token now op = some tok) :
    m.authenticate op now net
      = (m, AuthResult.token (tok.access_token.getD ""), []) := by
  have hval := lemma_get_best_token_valid h
  unfold Manager.authenticate
  rw [h]
  simp [hval]

/-- Without machine credentials the refresh attempt raises before any
exchange, so the slow path falls through to flow selection unchanged. -/
theorem lemma_slow_nomc (m : Manager) (op : Option String) (now : Nat)
    (net : NetOracle) (hmc : m.has_machine_credentials = false) :
    m.authenticateSlow op now net = m.authenticateAfterRefresh op now net [] := by
  have href : m.refresh_user_token now net
      = (FlowResult.failure "Token refresh not available - no machine credentials configured for OAuth flow", []) := by
    unfold Manager.refresh_user_token
    rw [hmc]
    rfl
  unfold Manager.authenticateSlow
  by_cases hc : (strTruthy m.authStatus.user.refresh_token
      && !(m.authStatus.user.is_valid now)) = true
  · rw [if_pos hc, href]
  · rw [if_neg hc]

/-- Without machine credentials and with an unusable user slot, flow
selection raises the distinct no-credentials-configured error. -/
theorem lemma_afterRefresh_nomc (m : Manager) (op : Option String) (now : Nat)
    (net : NetOracle) (calls : List NetCall)
    (hmc : m.has_machine_credentials = false)
    (huser : m.authStatus.user.is_valid now = false) :
    m.authenticateAfterRefresh op now net calls
      = (m, AuthResult.failed "No valid authentication available. Machine credentials not configured and no user tokens injected.", calls) := by
  unfold Manager.authenticateAfterRefresh
  rw [hmc, huser]
  rfl

/-- Claim C6: when the selector finds a usable cached token, `authenticate`
returns its access token with no network exchange and no state mutation;
consequently an immediately repeated call behaves identically, again with
zero network exchanges. -/
theorem C6_fast_path (m : Manager) (op : Option String) (now : Nat)
    (net : NetOracle) (tok : TokenInfo)
    (h : m.authStatus.get_best_token now op = some tok) :
    m.authenticate op now net
      = (m, AuthResult.token (tok.access_token.getD ""), [])
    ∧ (m.authenticate op now net).1.authenticate op now net
      = (m, AuthResult.token (tok.access_token.getD ""), []) := by
  have h1 := lemma_authenticate_fast m op now net tok h
  refine ⟨h1, ?_⟩
  rw [h1]
  exact h1

/-- Claim C6 witness: a cached client token is served twice with no exchanges. -/
theorem C6_fast_path_witness :
    mInjC.authenticate (some "get_devices") 10 netAll
      = (mInjC, AuthResult.token (tokClientInj.access_token.getD ""), [])
    ∧ (mInjC.authenticate (some "get_devices") 10 netAll).1.authenticate (some "get_devices") 10 netAll
      = (mInjC, AuthResult.token (tokClientInj.access_token.getD ""), []) :=
  C6_fast_path mInjC (some "get_devices") 10 netAll tokClientInj (by decide)

/-- Claim C3, counterexample: a manager constructed without machine credentials
but with a usable injected client token does not fail when the user slot is
unusable — `authenticate("get_devices")` returns the client token (the
claim says it must fail with the no-credentials error whenever the user
slot holds no usable token). -/
theorem C3_counterexample :
    mInjC.has_machine_credentials = false
    ∧ (mInjC.token_manager.get_token "user").is_valid 10 = false
    ∧ mInjC.authenticate (some "get_devices") 10 netNone
        = (mInjC, AuthResult.token "cltok", []) := by
  decide

/-- Claim C3 (amended): in injection-only mode `authenticate` performs no network
exchange of any kind; if the selector finds a usable token (which may be
the client record, since the client slot too can be populated by
injection) that token is returned, and otherwise — in which case the user
slot is necessarily unusable — it fails immediately with the distinct
no-credentials-configured error. -/
theorem C3_injection_only (m : Manager) (op : Option String) (now : Nat)
    (net : NetOracle) (hmc : m.has_machine_credentials = false) :
    (m.authenticate op now net).2.2 = []
    ∧ (∀ tok, m.authStatus.get_best_token now op = some tok →
        m.authenticate op now net
          = (m, AuthResult.token (tok.access_token.getD ""), []))
    ∧ (m.authStatus.get_best_token now op = none →
        m.authenticate op now net
          = (m, AuthResult.failed "No valid authentication available. Machine credentials not configured and no user tokens injected.", [])
        ∧ m.authStatus.user.is_valid now = false) := by
  have hnone : m.authStatus.get_best_token now op = none →
      m.authenticate op now net
        = (m, AuthResult.failed "No valid authentication available. Machine credentials not configured and no user tokens injected.", [])
      ∧ m.authStatus.user.is_valid now = false := by
    intro h
    have huser := lemma_get_best_token_none h
    have hstep : m.authenticate op now net = m.authenticateSlow op now net := by
      unfold Manager.authenticate
      rw [h]
    rw [hstep, lemma_slow_nomc m op now net hmc,
      lemma_afterRefresh_nomc m op now net [] hmc huser]
    exact ⟨rfl, huser⟩
  refine ⟨?_, fun tok h => lemma_authenticate_fast m op now net tok h, hnone⟩
  cases hsel : m.authStatus.get_best_token now op with
  | some tok => rw [lemma_authenticate_fast m op now net tok hsel]
  | none => rw [(hnone hsel).1]

/-- Claim C3 witness: injection-only mode with nothing injected fails with the
no-credentials error and an unusable user slot. -/
theorem C3_injection_only_witness :
    mInjEmpty.authenticate (some "get_devices") 0 netAll
      = (mInjEmpty, AuthResult.failed "No valid authentication available. Machine credentials not configured and no user tokens injected.", [])
    ∧ mInjEmpty.authStatus.user.is_valid 0 = false :=
  (C3_injection_only mInjEmpty (some "get_devices") 0 netAll rfl).2.2 (by decide)

/-- Claim C5, counterexample: with machine credentials in `auth_mode = "user"`,
the flow run for the non-ticket operation `"get_devices"` is the
user-authorization flow, not the client-credentials flow demanded by the ticket-substring rule of the claim (flow choice also keys on the auth mode). -/
theorem C5_counterexample :
    mUserMode.auth_mode = "user"
    ∧ mUserMode.has_machine_credentials = true
    ∧ pyIn "ticket" (pyLower "get_devices") = false
    ∧ (mUserMode.authenticate (some "get_devices") 0 netAll).2.2
        = [NetCall.userAuth] := by
  decide

/-- Lemma: a flow helper that returns success has just run `set_token`, so
the resulting state has the full store persisted (storage equal to the
serialization of the in-memory dict). -/
theorem lemma_flow_success_persists (m : Manager) (now : Nat) (net : NetOracle)
    (m2 : Manager) (cs : List NetCall)
    (hmc : m.has_machine_credentials = true) :
    (m.auth_user_authorization now net = (FlowResult.success m2, cs) →
      m2.token_manager.storage = some (serializeTokens m2.token_manager.tokens))
    ∧ (m.auth_client_credentials now net = (FlowResult.success m2, cs) →
      m2.token_manager.storage = some (serializeTokens m2.token_manager.tokens)) := by
  constructor
  · intro hfl
    unfold Manager.auth_user_authorization at hfl
    rw [hmc] at hfl
    cases hua : net.userAuth with
    | none => rw [hua] at hfl; simp at hfl
    | some td =>
      rw [hua] at hfl
      simp at hfl
      rw [← hfl.1]
      rfl
  · intro hfl
    unfold Manager.auth_client_credentials at hfl
    rw [hmc] at hfl
    cases hua : net.clientCreds with
    | none => rw [hua] at hfl; simp at hfl
    | some td =>
      rw [hua] at hfl
      simp at hfl
      rw [← hfl.1]
      rfl

/-- Claim C5 (amended): in the default hybrid auth mode, once flow selection
is reached with machine credentials present, the flow is determined by the
same ticket-substring rule as the selector for every operation input: for
every operation name containing `"ticket"` (case-insensitively) the
user-authorization flow runs, and for every other operation name — the
empty name and the no-name case included — the client-credentials flow
runs, followed by the standard finish (recompute status, return the
selected token, or fail with "authentication failed"); a successful flow
leaves the store persisted (storage equal to the serialization of the full
in-memory store). -/
theorem C5_flow_choice (m : Manager) (op : Option String) (now : Nat)
    (net : NetOracle) (hmode : m.auth_mode = "hybrid")
    (hmc : m.has_machine_credentials = true) :
    (m.authenticateAfterRefresh op now net []
      = (if (match op with
             | some s => pyIn "ticket" (pyLower s)
             | none => false) = true then
           match m.auth_user_authorization now net with
           | (FlowResult.success m2, cs) => m2.finishAuth op now cs
           | (FlowResult.failure e, cs) => (m, AuthResult.failed e, cs)
         else
           match m.auth_client_credentials now net with
           | (FlowResult.success m2, cs) => m2.finishAuth op now cs
           | (FlowResult.failure e, cs) => (m, AuthResult.failed e, cs)))
    ∧ (∀ m2 cs,
        (if (match op with
             | some s => pyIn "ticket" (pyLower s)
             | none => false) = true then m.auth_user_authorization now net
         else m.auth_client_credentials now net)
          = (FlowResult.success m2, cs) →
        m2.token_manager.storage
          = some (serializeTokens m2.token_manager.tokens)) := by
  have e1 : (("hybrid" : String) == "client") = false := by decide
  have e2 : (("hybrid" : String) == "hybrid") = true := by decide
  have e3 : (("hybrid" : String) == "user") = false := by decide
  constructor
  · unfold Manager.authenticateAfterRefresh
    rw [hmc, hmode]
    cases op with
    | none =>
      have hnt : isNonTicketOperation none = false := rfl
      have hti : isTicketOperation none = false := rfl
      rcases hfl : m.auth_client_credentials now net with ⟨fr, cs⟩
      cases fr <;> simp [e1, e2, e3, hnt, hti, hfl]
    | some s =>
      by_cases ht : pyIn "ticket" (pyLower s) = true
      · have hop : (s == "") = false := by
          cases hq : (s == "") with
          | false => rfl
          | true =>
            have hqe : s = "" := by simpa [beq_iff_eq] using hq
            rw [hqe] at ht
            simp [pyLower, pyIn, hasSubstr, startsWithList] at ht
        have hnt : isNonTicketOperation (some s) = false := by
          simp [isNonTicketOperation, hop, ht]
        have hti : isTicketOperation (some s) = true := by
          simp [isTicketOperation, hop, ht]
        rcases hfl : m.auth_user_authorization now net with ⟨fr, cs⟩
        cases fr <;> simp [e1, e2, e3, hnt, hti, ht, hfl]
      · have hts : pyIn "ticket" (pyLower s) = false := by
          cases hq : pyIn "ticket" (pyLower s) with
          | false => rfl
          | true => exact absurd hq ht
        have hti : isTicketOperation (some s) = false := by
          simp [isTicketOperation, hts]
        rcases hfl : m.auth_client_credentials now net with ⟨fr, cs⟩
        by_cases hs : (s == "") = true
        · have hnt : isNonTicketOperation (some s) = false := by
            simp [isNonTicketOperation, hs]
          cases fr <;> simp [e1, e2, e3, hnt, hti, hts, hfl]
        · have hs2 : (s == "") = false := by
            cases hq : (s == "") with
            | false => rfl
            | true => exact absurd hq hs
          have hnt : isNonTicketOperation (some s) = true := by
            simp [isNonTicketOperation, hs2, hts]
          cases fr <;> simp [e1, e2, e3, hnt, hti, hts, hfl]
  · intro m2 cs hfl
    cases op with
    | none =>
      simp at hfl
      exact (lemma_flow_success_persists m now net m2 cs hmc).2 hfl
    | some s =>
      by_cases ht : pyIn "ticket" (pyLower s) = true
      · simp [ht] at hfl
        exact (lemma_flow_success_persists m now net m2 cs hmc).1 hfl
      · have hts : pyIn "ticket" (pyLower s) = false := by
          cases hq : pyIn "ticket" (pyLower s) with
          | false => rfl
          | true => exact absurd hq ht
        simp [hts] at hfl
        exact (lemma_flow_success_persists m now net m2 cs hmc).2 hfl

/-- Claim C5 witness: hybrid mode, non-ticket operation, flow-selection step on a
fresh store with a successful oracle. -/
theorem C5_flow_choice_witness :
    mHybrid.authenticateAfterRefresh (some "get_devices") 0 netAll []
      = (if (match (some "get_devices" : Option String) with
             | some s => pyIn "ticket" (pyLower s)
             | none => false) = true then
           match mHybrid.auth_user_authorization 0 netAll with
           | (FlowResult.success m2, cs) => m2.finishAuth (some "get_devices") 0 cs
           | (FlowResult.failure e, cs) => (mHybrid, AuthResult.failed e, cs)
         else
           match mHybrid.auth_client_credentials 0 netAll with
           | (FlowResult.success m2, cs) => m2.finishAuth (some "get_devices") 0 cs
           | (FlowResult.failure e, cs) => (mHybrid, AuthResult.failed e, cs)) :=
  (C5_flow_choice mHybrid (some "get_devices") 0 netAll rfl rfl).1










end NinjaMCP
